import Mathlib

/-!
Shallow embedding of the PushPut audit-settings collector script
(`src/script.py`).

The script reads mailbox rows from a CSV file, skips the first row,
launches one asynchronous fetch per remaining row, gathers the results,
filters out failures and writes the surviving records to an output CSV
file.

Modelling decisions, each tied to a line of the source:

* A CSV row (as produced by the `csv.reader` on line 40) is a
  `List String`.  The script passes the WHOLE row, not a single field,
  to `get_mailbox_audit_settings` (line 44), so the identifier that is
  interpolated into the URL (line 25) and stored in the `Mailbox` field
  (line 28) is the Python `str()` of a list, which we model with
  `pyStrRow`.  `pyStrRow` is faithful for rows whose fields contain no
  quote or backslash characters (Python would escape those in `repr`).
* The Graph client together with `result.json()` (lines 24-26) is an
  external collaborator; we model it as an oracle from the request URL
  to one of three outcomes: `client.get` raises (network error, non-2xx
  surfaced as an exception, authentication failure), `result.json()`
  raises (decode error), or a decoded JSON value is produced.
* Python exceptions caught by the `except Exception` on line 32 are
  represented by the `Option` result together with the printed
  diagnostic line (line 33).
* `asyncio.gather` (line 45) returns results indexed by submission
  order; only the interleaving of the `print` side effects depends on
  the completion schedule, which we expose as an explicit schedule
  parameter `σ` so that schedule independence of the output can be
  stated and proved.
* JSON objects decode to Python dicts; with duplicate keys `json.loads`
  keeps the LAST occurrence, hence `objGet` folds from the left keeping
  the last match.  `settings.get` on a non-dict raises
  `AttributeError`, whose message we reproduce in `attrErrMsg`.
* `csv.DictWriter` (lines 47-52) stringifies each value with `str()`,
  writes `None` as the empty string, quotes a field iff it contains a
  delimiter, quote char or newline, and terminates rows with CRLF.
-/

/-- A decoded JSON value, the possible results of `result.json()`. -/
inductive Json where
  | null : Json
  | bool : Bool → Json
  | str : String → Json
  | num : Int → Json
  | arr : List Json → Json
  | obj : List (String × Json) → Json

/-- Python type name of the decoded value, as used in the
`AttributeError` message raised by `settings.get` on a non-dict. -/
def Json.pyTypeName : Json → String
  | .null => "NoneType"
  | .bool _ => "bool"
  | .str _ => "str"
  | .num _ => "int"
  | .arr _ => "list"
  | .obj _ => "dict"

/-- Whether the decoded value is a JSON object (a Python dict). -/
def Json.isObj : Json → Bool
  | .obj _ => true
  | _ => false

mutual

/-- Python `repr` of a decoded JSON value (simple-string fidelity:
no escaping of quotes or backslashes inside strings). -/
def pyRepr : Json → String
  | .null => "None"
  | .bool true => "True"
  | .bool false => "False"
  | .str s => "\x27" ++ s ++ "\x27"
  | .num n => toString n
  | .arr xs => "[" ++ pyReprList xs ++ "]"
  | .obj fs => "\x7b" ++ pyReprFields fs ++ "\x7d"

/-- Comma-separated `repr`s of the elements of a Python list. -/
def pyReprList : List Json → String
  | [] => ""
  | [x] => pyRepr x
  | x :: xs => pyRepr x ++ ", " ++ pyReprList xs

/-- Comma-separated `repr`s of the entries of a Python dict. -/
def pyReprFields : List (String × Json) → String
  | [] => ""
  | [(k, v)] => "\x27" ++ k ++ "\x27: " ++ pyRepr v
  | (k, v) :: fs => "\x27" ++ k ++ "\x27: " ++ pyRepr v ++ ", " ++ pyReprFields fs

end

/-- Python `str` of a decoded JSON value (differs from `repr` only on
strings, which print without quotes). -/
def pyStr : Json → String
  | .str s => s
  | v => pyRepr v

/-- Python `str()` of a CSV row (a list of strings): the script
interpolates the whole row into the URL f-string on line 25 and stores
it in the `Mailbox` field on line 28. -/
def pyStrRow (row : List String) : String :=
  "[" ++ String.intercalate ", " (row.map (fun s => "\x27" ++ s ++ "\x27")) ++ "]"

/-- `dict.get k`: `json.loads` keeps the last duplicate key, so the
fold keeps the last match; a missing key yields Python `None`. -/
def objGet (fields : List (String × Json)) (key : String) : Option Json :=
  fields.foldl (fun acc p => if p.1 = key then some p.2 else acc) none

/-- Outcome of one request against the external collaborator
(`client.get` on line 24 followed by `result.json()` on line 26),
keyed by the request URL. -/
inductive GetResult where
  | raiseGet (msg : String)
  | raiseJson (msg : String)
  | ok (v : Json)

/-- The remote collaborator: a fixed mapping from request URLs to
outcomes.  Fixing it for a run models "same remote responses". -/
def Oracle : Type := String → GetResult

/-- The record built on lines 27-31 for a successful fetch.  The two
audit fields hold `none` for Python `None` (key absent, or `.get` of a
JSON `null` is modelled as `some .null`, see `fieldStr`). -/
structure AuditRecord where
  Mailbox : List String
  AuditEnabled : Option Json
  AuditLogAgeLimit : Option Json

/-- The URL built by the f-string on line 25. -/
def urlOf (row : List String) : String :=
  "/users/" ++ pyStrRow row ++ "/mailboxSettings"

/-- The diagnostic printed on line 33 for a failed fetch. -/
def errLine (row : List String) (msg : String) : String :=
  "Error getting settings for " ++ pyStrRow row ++ ": " ++ msg

/-- Message of the `AttributeError` raised by `settings.get` when the
decoded body is not a dict. -/
def attrErrMsg (v : Json) : String :=
  "\x27" ++ v.pyTypeName ++ "\x27 object has no attribute \x27get\x27"

/-- The error message with which a fetch of `row` fails under the
given outcome, `none` when the fetch succeeds.  Failure cases: the GET
raised, the JSON decode raised, or the body is not a dict (so the
`.get` attribute access on line 29 raises `AttributeError`). -/
def errMsgOf : GetResult → Option String
  | .raiseGet e => some e
  | .raiseJson e => some e
  | .ok v => if v.isObj then none else some (attrErrMsg v)

/-- `get_mailbox_audit_settings` (lines 21-34): returns the record (or
`None` on any exception) together with the lines it printed. -/
def fetchAuditSettings (oracle : Oracle) (row : List String) :
    Option AuditRecord × List String :=
  match oracle (urlOf row) with
  | .raiseGet e => (none, [errLine row e])
  | .raiseJson e => (none, [errLine row e])
  | .ok (.obj fields) =>
      (some ⟨row, objGet fields "auditEnabled", objGet fields "auditLogAgeLimit"⟩, [])
  | .ok v => (none, [errLine row (attrErrMsg v)])

/-- The records surviving the `if result` filter on line 52, in the
submission order preserved by `asyncio.gather` (line 45).  Every
successful result is a non-empty dict, hence truthy, so the filter
keeps exactly the non-`None` results. -/
def batchRecords (oracle : Oracle) (mailboxes : List (List String)) : List AuditRecord :=
  ((mailboxes.map (fetchAuditSettings oracle)).map Prod.fst).filterMap id

/-- The `print` output of the whole batch under completion schedule
`σ` (a list of task indices in completion order): each diagnostic is
printed when its task runs, so only this interleaving depends on the
schedule. -/
def schedLogs (outs : List (Option AuditRecord × List String)) (σ : List Nat) :
    List String :=
  ((σ.filterMap fun i => outs[i]?).map Prod.snd).flatten

/-- Header written by `writer.writeheader()` (line 50). -/
def headerLine : String := "Mailbox,AuditEnabled,AuditLogAgeLimit"

/-- Whether `csv.writer` (QUOTE_MINIMAL) must quote the field: it
contains the delimiter, the quote char or a newline character. -/
def needsQuote (s : String) : Bool :=
  s.toList.any (fun c => c = ',' || c = '\x22' || c = '\n' || c = '\x0d')

/-- Double every embedded quote char, as `csv.writer` does inside a
quoted field. -/
def escapeQuotes (s : String) : String :=
  String.mk ((s.toList.map (fun c => if c = '\x22' then [c, c] else [c])).flatten)

/-- CSV field quoting of `csv.writer` (QUOTE_MINIMAL). -/
def csvQuote (s : String) : String :=
  if needsQuote s then "\x22" ++ escapeQuotes s ++ "\x22" else s

/-- `str()` of a record field as `csv.DictWriter` renders it: Python
`None` (key absent, or a JSON `null` value) becomes the empty string. -/
def fieldStr : Option Json → String
  | none => ""
  | some .null => ""
  | some v => pyStr v

/-- One output row as written by `writer.writerows` (line 52). -/
def recordLine (r : AuditRecord) : String :=
  String.intercalate ","
    [csvQuote (pyStrRow r.Mailbox),
     csvQuote (fieldStr r.AuditEnabled),
     csvQuote (fieldStr r.AuditLogAgeLimit)]

/-- The lines of the output file: header then one row per record. -/
def outputLines (records : List AuditRecord) : List String :=
  headerLine :: records.map recordLine

/-- The bytes of the output file: each row is CRLF-terminated
(`csv.writer` default together with `newline=""` on line 47). -/
def fileContent (lines : List String) : String :=
  String.join (lines.map (fun l => l ++ "\x0d\n"))

/-- How a run of `main` can abort: the `open` on line 39 raises
`FileNotFoundError`, or the `next(reader)` on line 41 raises
`StopIteration` on a file with no rows at all. -/
inductive RunError where
  | fileNotFoundError : RunError
  | stopIteration : RunError
deriving DecidableEq, Repr

/-- Observable trace of one run of `main` (lines 37-52): the output
file lines (or the uncaught error), the rows handed to the fetch tasks
(one task per row, line 44), and the printed diagnostics in schedule
order. -/
structure RunTrace where
  result : Except RunError (List String)
  fetched : List (List String)
  logs : List String

/-- `main` (lines 37-52).  `file` is `none` when the input path does
not exist, otherwise the parsed rows of the CSV file.  `σ` is the
completion schedule of the gathered tasks. -/
def runProgram (file : Option (List (List String))) (oracle : Oracle) (σ : List Nat) :
    RunTrace :=
  match file with
  | none => ⟨.error .fileNotFoundError, [], []⟩
  | some [] => ⟨.error .stopIteration, [], []⟩
  | some (_header :: mailboxes) =>
      let outs := mailboxes.map (fetchAuditSettings oracle)
      let records := (outs.map Prod.fst).filterMap id
      ⟨.ok (outputLines records), mailboxes, schedLogs outs σ⟩

/-- Output bytes of a run, `none` when the run aborted before the
output file was written. -/
def fileBytes (t : RunTrace) : Option String :=
  match t.result with
  | .ok lines => some (fileContent lines)
  | .error _ => none

/-! ### Helper lemmas -/

/-- A fetch whose outcome carries an error message returns `None` and
prints exactly the diagnostic of line 33. -/
theorem fetch_fail_eq (oracle : Oracle) (row : List String) (e : String)
    (h : errMsgOf (oracle (urlOf row)) = some e) :
    fetchAuditSettings oracle row = (none, [errLine row e]) := by
  unfold errMsgOf at h
  unfold fetchAuditSettings
  cases hg : oracle (urlOf row) with
  | raiseGet m => rw [hg] at h; cases h; rfl
  | raiseJson m => rw [hg] at h; cases h; rfl
  | ok v =>
      rw [hg] at h
      cases v <;> simp_all [Json.isObj]

/-- A successful fetch returns the record of lines 27-31. -/
theorem fetch_ok_eq (oracle : Oracle) (row : List String)
    (fields : List (String × Json))
    (h : oracle (urlOf row) = .ok (.obj fields)) :
    fetchAuditSettings oracle row =
      (some ⟨row, objGet fields "auditEnabled", objGet fields "auditLogAgeLimit"⟩, []) := by
  unfold fetchAuditSettings
  rw [h]

/-- The record produced by a fetch carries the fetched row in its
`Mailbox` field. -/
theorem fetch_mailbox (oracle : Oracle) (row : List String) (r : AuditRecord)
    (h : (fetchAuditSettings oracle row).1 = some r) : r.Mailbox = row := by
  unfold fetchAuditSettings at h
  cases hg : oracle (urlOf row) <;> rw [hg] at h
  case raiseGet m => simp at h
  case raiseJson m => simp at h
  case ok v =>
    cases v <;> simp at h
    case obj fields => rw [← h]

/-- The surviving records are the successful fetches in input order. -/
theorem batchRecords_eq (oracle : Oracle) (mailboxes : List (List String)) :
    batchRecords oracle mailboxes =
      mailboxes.filterMap (fun m => (fetchAuditSettings oracle m).1) := by
  unfold batchRecords
  simp only [List.filterMap_map]
  rfl

/-- Every surviving record comes from a successful fetch of its own
`Mailbox` row. -/
theorem mem_batchRecords (oracle : Oracle) (mailboxes : List (List String))
    (r : AuditRecord) (h : r ∈ batchRecords oracle mailboxes) :
    (fetchAuditSettings oracle r.Mailbox).1 = some r := by
  rw [batchRecords_eq] at h
  rcases List.mem_filterMap.mp h with ⟨m, _, hm⟩
  have := fetch_mailbox oracle m r hm
  rw [this]
  exact hm

/-- On a file with at least one row, the run writes the header and the
surviving records, and fetches exactly the rows after the header. -/
theorem runProgram_cons (oracle : Oracle) (σ : List Nat)
    (header : List String) (mailboxes : List (List String)) :
    runProgram (some (header :: mailboxes)) oracle σ =
      ⟨.ok (outputLines (batchRecords oracle mailboxes)), mailboxes,
        schedLogs (mailboxes.map (fetchAuditSettings oracle)) σ⟩ := rfl

/-- Full containment of one failing fetch: `None` result, the printed
diagnostic, the batch still succeeds, and no output record carries the
failing row. -/
theorem fail_contained (oracle : Oracle) (row : List String) (e : String)
    (header : List String) (mailboxes : List (List String)) (σ : List Nat)
    (h : errMsgOf (oracle (urlOf row)) = some e) :
    fetchAuditSettings oracle row = (none, [errLine row e]) ∧
    (runProgram (some (header :: mailboxes)) oracle σ).result.isOk = true ∧
    ∀ r ∈ batchRecords oracle mailboxes, r.Mailbox ≠ row := by
  refine ⟨fetch_fail_eq oracle row e h, ?_, ?_⟩
  · rw [runProgram_cons]
    rfl
  · intro r hr hEq
    have hs := mem_batchRecords oracle mailboxes r hr
    rw [hEq, fetch_fail_eq oracle row e h] at hs
    simp at hs

/-- If the fetch of `row` succeeds, the surviving records carry `row`
in their `Mailbox` field as often as `row` occurs among the data
rows. -/
theorem countP_batchRecords (oracle : Oracle) (row : List String)
    (hs : ((fetchAuditSettings oracle row).1).isSome = true)
    (mailboxes : List (List String)) :
    (batchRecords oracle mailboxes).countP (fun r => r.Mailbox == row) =
      mailboxes.count row := by
  rw [batchRecords_eq]
  induction mailboxes with
  | nil => rfl
  | cons m ms ih =>
      rw [List.filterMap_cons]
      cases hm : (fetchAuditSettings oracle m).1 with
      | none =>
          by_cases hmr : m = row
          · rw [hmr] at hm
            rw [hm] at hs
            simp at hs
          · have hne : (m == row) = false := beq_eq_false_iff_ne.mpr hmr
            rw [List.count_cons, ih, hne]
            simp
      | some r =>
          have hMb : r.Mailbox = m := fetch_mailbox oracle m r hm
          rw [List.countP_cons, List.count_cons, ih]
          simp [hMb]

/-- The fold of `objGet` never changes an accumulator when no entry
matches the key. -/
theorem objGet_foldl_acc (fs : List (String × Json)) (acc : Option Json) (k : String)
    (h : ∀ p ∈ fs, p.1 ≠ k) :
    fs.foldl (fun acc p => if p.1 = k then some p.2 else acc) acc = acc := by
  induction fs generalizing acc with
  | nil => rfl
  | cons a fs ih =>
      have ha : a.1 ≠ k := h a (List.mem_cons_self a fs)
      simp only [List.foldl_cons, if_neg ha]
      exact ih acc (fun p hp => h p (List.mem_cons_of_mem a hp))

/-- A key absent from the decoded object yields Python `None`. -/
theorem objGet_none (fs : List (String × Json)) (k : String)
    (h : ∀ p ∈ fs, p.1 ≠ k) : objGet fs k = none :=
  objGet_foldl_acc fs none k h

/-! ### Claim theorems -/

/-- C1: whenever the fetch of a row fails for any reason (the GET
raised, the JSON decode raised, or the body is not a dict), the
function prints one diagnostic naming that mailbox and the error and
returns `None`; no exception propagates, the batch over any data rows
still produces an output file, and no output record carries the
failing row. -/
theorem C1_fetch_failure_contained (oracle : Oracle) (row : List String) (e : String)
    (header : List String) (mailboxes : List (List String)) (σ : List Nat)
    (h : errMsgOf (oracle (urlOf row)) = some e) :
    fetchAuditSettings oracle row = (none, [errLine row e]) ∧
    (runProgram (some (header :: mailboxes)) oracle σ).result.isOk = true ∧
    ∀ r ∈ batchRecords oracle mailboxes, r.Mailbox ≠ row :=
  fail_contained oracle row e header mailboxes σ h

/-- A remote that always raises, for concrete instantiations. -/
def failOracle : Oracle := fun _ => .raiseGet "boom"

theorem C1_fetch_failure_contained_witness :
    errMsgOf (failOracle (urlOf ["a"])) = some "boom" ∧
    (fetchAuditSettings failOracle ["a"] = (none, [errLine ["a"] "boom"]) ∧
     (runProgram (some [["Mailbox"], ["a"]]) failOracle [0]).result.isOk = true ∧
     ∀ r ∈ batchRecords failOracle [["a"]], r.Mailbox ≠ ["a"]) :=
  ⟨rfl, C1_fetch_failure_contained failOracle ["a"] "boom" ["Mailbox"] [["a"]] [0] rfl⟩

/-- C2: on a file with a header row and N data rows, exactly the N
data rows are handed to the fetch tasks, one task per row, the header
row never among them. -/
theorem C2_one_task_per_row (oracle : Oracle) (σ : List Nat)
    (header : List String) (mailboxes : List (List String)) :
    (runProgram (some (header :: mailboxes)) oracle σ).fetched = mailboxes ∧
    (runProgram (some (header :: mailboxes)) oracle σ).fetched.length = mailboxes.length :=
  ⟨rfl, rfl⟩

/-- C3: a row whose fetch succeeds and which occurs once among the
data rows yields exactly one output record carrying it, holding the
two extracted fields, that record is serialized into the output file,
and a field absent from the JSON body is `None` in the record. -/
theorem C3_success_row_in_output (oracle : Oracle) (σ : List Nat)
    (header row : List String) (mailboxes : List (List String))
    (fields : List (String × Json))
    (hok : oracle (urlOf row) = .ok (.obj fields))
    (honce : mailboxes.count row = 1) :
    (batchRecords oracle mailboxes).countP (fun r => r.Mailbox == row) = 1 ∧
    (⟨row, objGet fields "auditEnabled", objGet fields "auditLogAgeLimit"⟩ : AuditRecord)
      ∈ batchRecords oracle mailboxes ∧
    (runProgram (some (header :: mailboxes)) oracle σ).result =
      .ok (outputLines (batchRecords oracle mailboxes)) ∧
    recordLine ⟨row, objGet fields "auditEnabled", objGet fields "auditLogAgeLimit"⟩
      ∈ outputLines (batchRecords oracle mailboxes) ∧
    (∀ k, (∀ p ∈ fields, p.1 ≠ k) → objGet fields k = none) := by
  have hfetch := fetch_ok_eq oracle row fields hok
  have hsome : ((fetchAuditSettings oracle row).1).isSome = true := by
    rw [hfetch]
    rfl
  have hmem : (⟨row, objGet fields "auditEnabled", objGet fields "auditLogAgeLimit"⟩
      : AuditRecord) ∈ batchRecords oracle mailboxes := by
    rw [batchRecords_eq]
    refine List.mem_filterMap.mpr ⟨row, ?_, ?_⟩
    · have hpos : 0 < mailboxes.count row := by omega
      exact List.count_pos_iff.mp hpos
    · rw [hfetch]
  refine ⟨?_, hmem, ?_, ?_, ?_⟩
  · rw [countP_batchRecords oracle row hsome mailboxes, honce]
  · rw [runProgram_cons]
  · unfold outputLines
    exact List.mem_cons_of_mem _ (List.mem_map_of_mem recordLine hmem)
  · exact fun k hk => objGet_none fields k hk

/-- A remote that always returns one-field audit settings, for
concrete instantiations. -/
def okOracle : Oracle := fun _ => .ok (.obj [("auditEnabled", Json.bool true)])

theorem C3_success_row_in_output_witness :
    okOracle (urlOf ["a"]) = .ok (.obj [("auditEnabled", Json.bool true)]) ∧
    ([["a"]] : List (List String)).count ["a"] = 1 ∧
    ((batchRecords okOracle [["a"]]).countP (fun r => r.Mailbox == ["a"]) = 1 ∧
     (⟨["a"], objGet [("auditEnabled", Json.bool true)] "auditEnabled",
        objGet [("auditEnabled", Json.bool true)] "auditLogAgeLimit"⟩ : AuditRecord)
       ∈ batchRecords okOracle [["a"]] ∧
     (runProgram (some [["Mailbox"], ["a"]]) okOracle [0]).result =
       .ok (outputLines (batchRecords okOracle [["a"]])) ∧
     recordLine ⟨["a"], objGet [("auditEnabled", Json.bool true)] "auditEnabled",
        objGet [("auditEnabled", Json.bool true)] "auditLogAgeLimit"⟩
       ∈ outputLines (batchRecords okOracle [["a"]]) ∧
     (∀ k, (∀ p ∈ [("auditEnabled", Json.bool true)], p.1 ≠ k) →
        objGet [("auditEnabled", Json.bool true)] k = none)) :=
  ⟨rfl, rfl,
   C3_success_row_in_output okOracle [0] ["Mailbox"] ["a"] [["a"]]
     [("auditEnabled", Json.bool true)] rfl rfl⟩

/-- The header row of the end-to-end scenario input file. -/
def aliceRow : List String := ["alice@x.com"]

/-- The second data row of the end-to-end scenario input file. -/
def bobRow : List String := ["bob@x.com"]

/-- Scenario input file: header `Mailbox`, then the two data rows. -/
def scenarioFile : Option (List (List String)) := some [["Mailbox"], aliceRow, bobRow]

/-- Scenario remote: the settings object for the request generated by
the alice row, a raised 404 for every other request (in particular the
one generated by the bob row). -/
def scenarioOracle : Oracle := fun u =>
  if u = urlOf aliceRow then
    .ok (.obj [("auditEnabled", .bool true), ("auditLogAgeLimit", .str "90")])
  else .raiseGet "404 Not Found"

/-- C4: in the end-to-end scenario the output file is the header row
followed by exactly one data row for alice — but because the script
interpolates the whole CSV row (a Python list) into the `Mailbox`
field, that data row reads `[\x27alice@x.com\x27],True,90`, not the
`alice@x.com,True,90` that the specification expects. -/
theorem C4_scenario_output :
    (runProgram scenarioFile scenarioOracle [0, 1]).result =
      .ok ["Mailbox,AuditEnabled,AuditLogAgeLimit", "[\x27alice@x.com\x27],True,90"] ∧
    (runProgram scenarioFile scenarioOracle [0, 1]).result ≠
      .ok ["Mailbox,AuditEnabled,AuditLogAgeLimit", "alice@x.com,True,90"] ∧
    (runProgram scenarioFile scenarioOracle [0, 1]).logs =
      [errLine bobRow "404 Not Found"] := by
  refine ⟨rfl, ?_, rfl⟩
  intro h2
  rw [(rfl : (runProgram scenarioFile scenarioOracle [0, 1]).result =
    .ok ["Mailbox,AuditEnabled,AuditLogAgeLimit", "[\x27alice@x.com\x27],True,90"])] at h2
  injection h2 with h3
  exact absurd h3 (by decide)

/-- C5: the data rows of the output file are the successful fetches in
input order with failures skipped in place, for every completion
schedule of the gathered tasks. -/
theorem C5_output_preserves_input_order (oracle : Oracle) (σ : List Nat)
    (header : List String) (mailboxes : List (List String)) :
    (runProgram (some (header :: mailboxes)) oracle σ).result =
      .ok (headerLine ::
        (mailboxes.filterMap (fun m => (fetchAuditSettings oracle m).1)).map recordLine) := by
  rw [runProgram_cons]
  simp only [outputLines, batchRecords_eq]

/-- C6: when the input file does not exist, the run aborts with
`FileNotFoundError` before creating any fetch task, and no output
file is written. -/
theorem C6_missing_input_fatal (oracle : Oracle) (σ : List Nat) :
    runProgram none oracle σ = ⟨.error .fileNotFoundError, [], []⟩ ∧
    fileBytes (runProgram none oracle σ) = none :=
  ⟨rfl, rfl⟩

/-- C7: a file with only a header row completes successfully and
produces an output file holding only the fixed header row. -/
theorem C7_header_only_input (oracle : Oracle) (σ : List Nat) (header : List String) :
    (runProgram (some [header]) oracle σ).result = .ok [headerLine] ∧
    fileBytes (runProgram (some [header]) oracle σ) =
      some "Mailbox,AuditEnabled,AuditLogAgeLimit\x0d\n" := by
  constructor
  · rfl
  · show fileBytes ⟨.ok (outputLines (batchRecords oracle [])), [], _⟩ = _
    rfl

/-- C8: the output file is a deterministic function of the input rows
and the remote responses: two runs over the same file and oracle give
byte-identical output for any two completion schedules. -/
theorem C8_deterministic_output (file : Option (List (List String))) (oracle : Oracle)
    (σ τ : List Nat) :
    fileBytes (runProgram file oracle σ) = fileBytes (runProgram file oracle τ) ∧
    (runProgram file oracle σ).result = (runProgram file oracle τ).result := by
  cases file with
  | none => exact ⟨rfl, rfl⟩
  | some rows =>
      cases rows with
      | nil => exact ⟨rfl, rfl⟩
      | cons header mailboxes => exact ⟨rfl, rfl⟩

/-- C9: an input file that exists but has no rows at all makes the
unconditional header skip raise `StopIteration`: the run aborts, and
the output file is never written. -/
theorem C9_empty_input_aborts (oracle : Oracle) (σ : List Nat) :
    runProgram (some []) oracle σ = ⟨.error .stopIteration, [], []⟩ ∧
    fileBytes (runProgram (some []) oracle σ) = none :=
  ⟨rfl, rfl⟩

/-- C10: a 2xx response whose decoded body is valid JSON but not an
object is treated exactly like a failure: the `.get` access raises
inside the try block, the exception is caught, the `AttributeError`
diagnostic is printed, `None` is returned, and no output record
carries that row. -/
theorem C10_nonobject_body_is_failure (oracle : Oracle) (row : List String) (v : Json)
    (header : List String) (mailboxes : List (List String)) (σ : List Nat)
    (hok : oracle (urlOf row) = .ok v) (hno : v.isObj = false) :
    fetchAuditSettings oracle row = (none, [errLine row (attrErrMsg v)]) ∧
    (runProgram (some (header :: mailboxes)) oracle σ).result.isOk = true ∧
    ∀ r ∈ batchRecords oracle mailboxes, r.Mailbox ≠ row := by
  have hmsg : errMsgOf (oracle (urlOf row)) = some (attrErrMsg v) := by
    rw [hok]
    simp [errMsgOf, hno]
  exact fail_contained oracle row (attrErrMsg v) header mailboxes σ hmsg

/-- A remote that always returns a decodable JSON list body, for
concrete instantiations. -/
def listOracle : Oracle := fun _ => .ok (.arr [])

theorem C10_nonobject_body_is_failure_witness :
    listOracle (urlOf ["a"]) = .ok (.arr []) ∧
    (Json.arr []).isObj = false ∧
    (fetchAuditSettings listOracle ["a"] =
       (none, [errLine ["a"] (attrErrMsg (.arr []))]) ∧
     (runProgram (some [["Mailbox"], ["a"]]) listOracle [0]).result.isOk = true ∧
     ∀ r ∈ batchRecords listOracle [["a"]], r.Mailbox ≠ ["a"]) :=
  ⟨rfl, rfl,
   C10_nonobject_body_is_failure listOracle ["a"] (.arr []) ["Mailbox"] [["a"]] [0] rfl rfl⟩
